import Mathlib

/-!
Shallow embedding of the engulfing-candle backtesting core
(src/backtesting/{position,portfolio,performance,engulfing_backtester}.py).

Modelling conventions:
* `datetime` values are modelled as day ordinals (`Int`); Python's
  `(exit_date - entry_date).days` becomes integer subtraction.
* Python `float` arithmetic is modelled over `Rat` (exact rationals).
* Python `dict` (insertion-ordered, unique keys) is modelled as an
  association list; `del d[k]` is a key filter, insertion of a fresh key is
  an append.
* Methods that mutate `self` become functions `State → ... → State`;
  methods returning a value besides mutating return a pair.
-/

namespace Engulfing

/-- `PositionType` enum from position.py. -/
inductive PositionType where
  | LONG
  | SHORT
deriving DecidableEq, Repr

/-- `PositionStatus` enum from position.py. -/
inductive PositionStatus where
  | OPEN
  | CLOSED
deriving DecidableEq, Repr

/-- `ExitReason` enum from position.py. -/
inductive ExitReason where
  | PATTERN_EXIT
  | STOP_LOSS
  | STOP_WIN
deriving DecidableEq, Repr

/-- The `Position` dataclass from position.py.  `__post_init__` sets
`status = OPEN`, which is the default here; exit fields default to `None`. -/
structure Position where
  symbol : String
  position_type : PositionType
  entry_date : Int
  entry_price : Rat
  shares : Rat
  entry_value : Rat
  stop_loss_pct : Rat
  stop_win_pct : Rat
  exit_date : Option Int := none
  exit_price : Option Rat := none
  exit_value : Option Rat := none
  return_pct : Option Rat := none
  return_amount : Option Rat := none
  hold_days : Option Int := none
  exit_reason : Option ExitReason := none
  commission : Option Rat := none
  status : PositionStatus := PositionStatus.OPEN
deriving DecidableEq, Repr

namespace Position

/-- `Position.close_position`: fills every exit field and flips the status.
The source performs no status check before recomputing. -/
def close_position (p : Position) (exit_date : Int) (exit_price : Rat)
    (exit_reason : ExitReason) (commission : Rat) : Position :=
  let exit_value := p.shares * exit_price
  let return_amount :=
    match p.position_type with
    | PositionType.LONG => exit_value - p.entry_value - commission
    | PositionType.SHORT => p.entry_value - exit_value - commission
  { p with
    exit_date := some exit_date
    exit_price := some exit_price
    exit_value := some exit_value
    commission := some commission
    return_amount := some return_amount
    return_pct := some ((return_amount / p.entry_value) * 100)
    hold_days := some (exit_date - p.entry_date)
    exit_reason := some exit_reason
    status := PositionStatus.CLOSED }

/-- `Position.check_stop_loss`. -/
def check_stop_loss (p : Position) (current_price : Rat) : Bool :=
  match p.position_type with
  | PositionType.LONG => current_price ≤ p.entry_price * (1 - p.stop_loss_pct)
  | PositionType.SHORT => current_price ≥ p.entry_price * (1 + p.stop_loss_pct)

/-- `Position.check_stop_win`. -/
def check_stop_win (p : Position) (current_price : Rat) : Bool :=
  match p.position_type with
  | PositionType.LONG => current_price ≥ p.entry_price * (1 + p.stop_win_pct)
  | PositionType.SHORT => current_price ≤ p.entry_price * (1 - p.stop_win_pct)

end Position

/-- The flattened dictionary produced by `Position.to_dict`. -/
structure TradeRecord where
  symbol : String
  entry_date : Int
  exit_date : Option Int
  position_type : PositionType
  entry_price : Rat
  exit_price : Option Rat
  shares : Rat
  entry_value : Rat
  exit_value : Option Rat
  return_pct : Option Rat
  return_amount : Option Rat
  hold_days : Option Int
  exit_reason : Option ExitReason
  commission : Option Rat
deriving DecidableEq, Repr

/-- `Position.to_dict`. -/
def Position.to_dict (p : Position) : TradeRecord :=
  { symbol := p.symbol
    entry_date := p.entry_date
    exit_date := p.exit_date
    position_type := p.position_type
    entry_price := p.entry_price
    exit_price := p.exit_price
    shares := p.shares
    entry_value := p.entry_value
    exit_value := p.exit_value
    return_pct := p.return_pct
    return_amount := p.return_amount
    hold_days := p.hold_days
    exit_reason := p.exit_reason
    commission := p.commission }

/-- The `BacktestConfig` dataclass from config.py (defaults included). -/
structure BacktestConfig where
  initial_capital : Rat := 1000000
  position_size_pct : Rat := 5 / 100
  stop_loss_pct : Rat := 5 / 100
  stop_win_pct : Rat := 20 / 100
  commission_bps : Rat := 10
deriving DecidableEq, Repr

/-- The `Portfolio` class state from portfolio.py. `positions` models the
insertion-ordered `symbol -> Position` dict as an association list. -/
structure Portfolio where
  config : BacktestConfig
  initial_capital : Rat
  cash : Rat
  positions : List (String × Position)
  closed_positions : List Position
deriving DecidableEq, Repr

namespace Portfolio

/-- `Portfolio.__init__`. -/
def init (config : BacktestConfig) : Portfolio :=
  { config := config
    initial_capital := config.initial_capital
    cash := config.initial_capital
    positions := []
    closed_positions := [] }

/-- `Portfolio.has_position_in_stock`. -/
def has_position_in_stock (pf : Portfolio) (symbol : String) : Bool :=
  (pf.positions.lookup symbol).isSome

/-- `Portfolio.open_long_position`: returns the updated portfolio and the
boolean result of the Python method. -/
def open_long_position (pf : Portfolio) (symbol : String) (entry_date : Int)
    (entry_price : Rat) (_volume : Rat) : Portfolio × Bool :=
  if pf.has_position_in_stock symbol then
    (pf, false)
  else
    let position_value := pf.initial_capital * pf.config.position_size_pct
    let shares := position_value / entry_price
    let position : Position :=
      { symbol := symbol
        position_type := PositionType.LONG
        entry_date := entry_date
        entry_price := entry_price
        shares := shares
        entry_value := position_value
        stop_loss_pct := pf.config.stop_loss_pct
        stop_win_pct := pf.config.stop_win_pct }
    ({ pf with positions := pf.positions ++ [(symbol, position)] }, true)

/-- `Portfolio.open_short_position`. -/
def open_short_position (pf : Portfolio) (symbol : String) (entry_date : Int)
    (entry_price : Rat) (_volume : Rat) : Portfolio × Bool :=
  if pf.has_position_in_stock symbol then
    (pf, false)
  else
    let position_value := pf.initial_capital * pf.config.position_size_pct
    let shares := position_value / entry_price
    let position : Position :=
      { symbol := symbol
        position_type := PositionType.SHORT
        entry_date := entry_date
        entry_price := entry_price
        shares := shares
        entry_value := position_value
        stop_loss_pct := pf.config.stop_loss_pct
        stop_win_pct := pf.config.stop_win_pct }
    ({ pf with positions := pf.positions ++ [(symbol, position)] }, true)

/-- `Portfolio.close_position`: no-op when the symbol has no open position;
otherwise computes the commission, closes the looked-up position, appends it
to the closed history and deletes the key from the open map. -/
def close_position (pf : Portfolio) (symbol : String) (exit_date : Int)
    (exit_price : Rat) (exit_reason : ExitReason) : Portfolio :=
  match pf.positions.lookup symbol with
  | none => pf
  | some position =>
    let commission := (position.entry_value * pf.config.commission_bps) / 10000
    let closed := position.close_position exit_date exit_price exit_reason commission
    { pf with
      closed_positions := pf.closed_positions ++ [closed]
      positions := pf.positions.filter (fun e => e.1 != symbol) }

end Portfolio

/-- Mean of a list of rationals (`np.mean`); only applied to nonempty lists,
exactly as in the guarded source. -/
def listMean (l : List Rat) : Rat := l.sum / l.length

/-- `max(...)` over a nonempty Python list (guarded in the source). -/
def listMax : List Rat → Rat
  | [] => 0
  | h :: t => t.foldl max h

/-- `min(...)` over a nonempty Python list (guarded in the source). -/
def listMin : List Rat → Rat
  | [] => 0
  | h :: t => t.foldl min h

/-- The per-group metrics dictionary built by
`PerformanceMetrics._calculate_position_metrics`. -/
structure GroupMetrics where
  hit_rate : Rat
  average_return : Rat
  total_trades : Nat
  profitable_trades : Nat
  total_return : Rat
  best_trade : Rat
  worst_trade : Rat
deriving DecidableEq, Repr

/-- The `combined` sub-dictionary of the metrics result. -/
structure CombinedMetrics where
  hit_rate : Rat
  average_return : Rat
deriving DecidableEq, Repr

/-- The dictionary returned by `PerformanceMetrics.calculate_metrics`
(`overall` holds only `total_trades`). -/
structure MetricsResults where
  overall_total_trades : Nat
  long_positions : GroupMetrics
  short_positions : GroupMetrics
  combined : CombinedMetrics
deriving DecidableEq, Repr

/-- The `PerformanceMetrics` class state from performance.py. -/
structure PerformanceMetrics where
  trades : List TradeRecord := []
  daily_returns : List Rat := []
  daily_dates : List Int := []
deriving DecidableEq, Repr

namespace PerformanceMetrics

/-- `PerformanceMetrics.add_trade`. -/
def add_trade (pm : PerformanceMetrics) (trade : TradeRecord) : PerformanceMetrics :=
  { pm with trades := pm.trades ++ [trade] }

/-- Extract `t['return_pct']` from a trade record.  Every record the engine
adds is a closed position, so the field is always set; `getD 0` only
totalises the function. -/
def rp (t : TradeRecord) : Rat := t.return_pct.getD 0

/-- `PerformanceMetrics._calculate_position_metrics`. -/
def calculatePositionMetrics (trades : List TradeRecord) : GroupMetrics :=
  if trades.isEmpty then
    { hit_rate := 0
      average_return := 0
      total_trades := 0
      profitable_trades := 0
      total_return := 0
      best_trade := 0
      worst_trade := 0 }
  else
    let returns := trades.map rp
    let profitable_trades := (returns.filter (fun r => 0 < r)).length
    { hit_rate := ((profitable_trades : Rat) / trades.length) * 100
      average_return := listMean returns
      total_trades := trades.length
      profitable_trades := profitable_trades
      total_return := returns.sum
      best_trade := listMax returns
      worst_trade := listMin returns }

/-- `PerformanceMetrics._calculate_overall_hit_rate`. -/
def calculateOverallHitRate (pm : PerformanceMetrics) : Rat :=
  if pm.trades.isEmpty then 0
  else
    let profitable_trades := (pm.trades.filter (fun t => 0 < rp t)).length
    ((profitable_trades : Rat) / pm.trades.length) * 100

/-- `PerformanceMetrics._calculate_overall_average_return`. -/
def calculateOverallAverageReturn (pm : PerformanceMetrics) : Rat :=
  if pm.trades.isEmpty then 0
  else listMean (pm.trades.map rp)

/-- `PerformanceMetrics._empty_results`. -/
def emptyResults : MetricsResults :=
  { overall_total_trades := 0
    long_positions :=
      { hit_rate := 0, average_return := 0, total_trades := 0
        profitable_trades := 0, total_return := 0, best_trade := 0
        worst_trade := 0 }
    short_positions :=
      { hit_rate := 0, average_return := 0, total_trades := 0
        profitable_trades := 0, total_return := 0, best_trade := 0
        worst_trade := 0 }
    combined := { hit_rate := 0, average_return := 0 } }

/-- The value computed by `PerformanceMetrics.calculate_metrics`. -/
def metricsValue (pm : PerformanceMetrics) : MetricsResults :=
  if pm.trades.isEmpty then emptyResults
  else
    let long_trades := pm.trades.filter (fun t => t.position_type = PositionType.LONG)
    let short_trades := pm.trades.filter (fun t => t.position_type = PositionType.SHORT)
    { overall_total_trades := pm.trades.length
      long_positions := calculatePositionMetrics long_trades
      short_positions := calculatePositionMetrics short_trades
      combined :=
        { hit_rate := pm.calculateOverallHitRate
          average_return := pm.calculateOverallAverageReturn } }

/-- `PerformanceMetrics.calculate_metrics` as a state transformer: the method
body only reads `self.trades` (it assigns to no attribute), so the state it
leaves behind is the receiver unchanged, paired with the computed result. -/
def calculate_metrics (pm : PerformanceMetrics) : PerformanceMetrics × MetricsResults :=
  (pm, metricsValue pm)

end PerformanceMetrics

/-- One OHLCV row as the engine consumes it (only `date` and `close` are read
by the stop pass; the signal pass only tests row existence on a date). -/
structure PriceRow where
  date : Int
  close : Rat
deriving DecidableEq, Repr

/-- A per-symbol date-sorted series (`pd.DataFrame` rows). -/
abbrev StockData := List PriceRow

/-- One row of the signal DataFrame produced by the signal generator:
(date, signal_type, price, volume). -/
inductive SignalType where
  | bullish
  | bearish
deriving DecidableEq, Repr

/-- A signal row consumed by `_process_all_signals_on_date`. -/
structure SignalRow where
  date : Int
  signal_type : SignalType
  price : Rat
  volume : Rat
deriving DecidableEq, Repr

/-- The mutable engine state: `self.portfolio` and `self.performance`.
The signals cache is not part of the state here: caching a pure
`generate_signals` is observationally the computation itself. -/
structure EngineState where
  portfolio : Portfolio
  performance : PerformanceMetrics
deriving DecidableEq, Repr

namespace EngineState

/-- Engine construction (`EngulfingBacktester.__init__`). -/
def init (config : BacktestConfig) : EngineState :=
  { portfolio := Portfolio.init config, performance := {} }

end EngineState

/-- `all_trading_days` / `trading_days` of `run_backtest`: the union of each
symbol's dates, deduplicated and sorted ascending
(`sorted(list(set(...)))`). -/
def trading_days (all_stock_data : List (String × StockData)) : List Int :=
  ((all_stock_data.flatMap (fun e => e.2.map PriceRow.date)).dedup).insertionSort (· ≤ ·)

/-- `day_data = stock_data[stock_data['date'] == current_date]` for the series
of a symbol, `getD []` standing for a symbol absent from the loaded data
(its filtered frame is empty). -/
def day_rows (all_stock_data : List (String × StockData)) (symbol : String)
    (current_date : Int) : List PriceRow :=
  ((all_stock_data.lookup symbol).getD []).filter (fun r => r.date == current_date)

/-- The close-and-record step shared by the stop pass and the pattern exit:
`portfolio.close_position(...)` followed by
`performance.add_trade(position.to_dict())`.  The Python local `position`
aliases the dict entry `portfolio.positions[symbol]`, which
`portfolio.close_position` mutates in place, so the recorded trade is the
looked-up position after closing; when the symbol is absent the close is a
no-op and the (still-open) alias `position` is recorded as-is. -/
def close_and_record (st : EngineState) (symbol : String) (position : Position)
    (date : Int) (price : Rat) (reason : ExitReason) : EngineState :=
  let traded :=
    match st.portfolio.positions.lookup symbol with
    | none => position
    | some p =>
      p.close_position date price reason
        ((p.entry_value * st.portfolio.config.commission_bps) / 10000)
  { portfolio := st.portfolio.close_position symbol date price reason
    performance := st.performance.add_trade traded.to_dict }

/-- The body of the loop in `_check_all_stops_on_date` for one snapshot entry
`(symbol, position)`: skip when the symbol has no row today, otherwise test
stop-loss first, then stop-win. -/
def stop_update (current_date : Int) (all_stock_data : List (String × StockData))
    (st : EngineState) (entry : String × Position) : EngineState :=
  match (day_rows all_stock_data entry.1 current_date).head? with
  | none => st
  | some row =>
    let current_price := row.close
    if entry.2.check_stop_loss current_price then
      close_and_record st entry.1 entry.2 current_date current_price ExitReason.STOP_LOSS
    else if entry.2.check_stop_win current_price then
      close_and_record st entry.1 entry.2 current_date current_price ExitReason.STOP_WIN
    else st

/-- `EngulfingBacktester._check_all_stops_on_date`: iterate over a snapshot
(`list(self.portfolio.positions.items())`) taken before any close mutates
the map. -/
def check_all_stops_on_date (current_date : Int)
    (all_stock_data : List (String × StockData)) (st : EngineState) : EngineState :=
  st.portfolio.positions.foldl (stop_update current_date all_stock_data) st

/-- Processing of one signal row inside `_process_all_signals_on_date`:
an opposite signal closes with PATTERN_EXIT (and, because the open branch is
the `elif` of the same conditional, never opens in the same step); with no
open position a bullish signal opens long, a bearish one opens short. -/
def signal_update (symbol : String) (st : EngineState) (sig : SignalRow) : EngineState :=
  match st.portfolio.positions.lookup symbol with
  | some current_position =>
    if (current_position.position_type = PositionType.LONG
          ∧ sig.signal_type = SignalType.bearish)
        ∨ (current_position.position_type = PositionType.SHORT
          ∧ sig.signal_type = SignalType.bullish) then
      close_and_record st symbol current_position sig.date sig.price
        ExitReason.PATTERN_EXIT
    else st
  | none =>
    match sig.signal_type with
    | SignalType.bullish =>
      { st with
        portfolio :=
          (st.portfolio.open_long_position symbol sig.date sig.price sig.volume).1 }
    | SignalType.bearish =>
      { st with
        portfolio :=
          (st.portfolio.open_short_position symbol sig.date sig.price sig.volume).1 }

/-- The per-symbol body of `_process_all_signals_on_date`: skip symbols with
no price row today, generate (cached = pure) signals, filter to today, and
fold over today's signals in arrival order. -/
def process_signals_for_symbol (current_date : Int)
    (gen : StockData → List SignalRow) (st : EngineState)
    (entry : String × StockData) : EngineState :=
  let day_data := entry.2.filter (fun r => r.date == current_date)
  if day_data.isEmpty then st
  else
    let day_signals := (gen entry.2).filter (fun s => s.date == current_date)
    day_signals.foldl (signal_update entry.1) st

/-- `EngulfingBacktester._process_all_signals_on_date`. -/
def process_all_signals_on_date (current_date : Int)
    (gen : StockData → List SignalRow)
    (all_stock_data : List (String × StockData)) (st : EngineState) : EngineState :=
  all_stock_data.foldl (process_signals_for_symbol current_date gen) st

/-- One iteration of the day loop in `run_backtest`: stop pass, then signal
pass. -/
def run_day (all_stock_data : List (String × StockData))
    (gen : StockData → List SignalRow) (st : EngineState) (current_date : Int) :
    EngineState :=
  process_all_signals_on_date current_date gen all_stock_data
    (check_all_stops_on_date current_date all_stock_data st)

/-- The day-by-day core of `EngulfingBacktester.run_backtest` (loading and
printing stripped; returns the final engine state from which the result
dictionary is assembled). -/
def run_backtest (all_stock_data : List (String × StockData))
    (gen : StockData → List SignalRow) (config : BacktestConfig) : EngineState :=
  (trading_days all_stock_data).foldl (run_day all_stock_data gen)
    (EngineState.init config)

/-! ### Association-list helper lemmas (the `positions` dict) -/

theorem lookup_filter_self {β : Type} (l : List (String × β)) (k : String) :
    (l.filter (fun e => e.1 != k)).lookup k = none := by
  induction l with
  | nil => rfl
  | cons e t ih =>
    obtain ⟨k1, v1⟩ := e
    rw [List.filter_cons]
    by_cases h : k1 = k
    · have hp : (((k1, v1) : String × β).1 != k) = false := by simp [h]
      rw [hp]
      simpa using ih
    · have hp : (((k1, v1) : String × β).1 != k) = true := by simp [h]
      rw [hp, if_pos rfl, List.lookup_cons,
        show (k == k1) = false from beq_false_of_ne (fun hh => h hh.symm)]
      exact ih

theorem lookup_filter_ne {β : Type} (l : List (String × β)) (k k' : String)
    (h : k ≠ k') : (l.filter (fun e => e.1 != k')).lookup k = l.lookup k := by
  induction l with
  | nil => rfl
  | cons e t ih =>
    obtain ⟨k1, v1⟩ := e
    rw [List.filter_cons]
    by_cases he : k1 = k'
    · have hp : (((k1, v1) : String × β).1 != k') = false := by simp [he]
      have hb : (k == k1) = false := beq_false_of_ne (fun hh => h (hh.trans he))
      rw [hp, List.lookup_cons, hb]
      simpa using ih
    · have hp : (((k1, v1) : String × β).1 != k') = true := by simp [he]
      rw [hp, if_pos rfl, List.lookup_cons, List.lookup_cons]
      cases hb : (k == k1) with
      | true => rfl
      | false => exact ih

theorem lookup_append_some {β : Type} (l₁ l₂ : List (String × β)) (k : String)
    (v : β) (h : l₁.lookup k = some v) : (l₁ ++ l₂).lookup k = some v := by
  induction l₁ with
  | nil => simp [List.lookup] at h
  | cons e t ih =>
    obtain ⟨k1, v1⟩ := e
    rw [List.cons_append, List.lookup_cons]
    rw [List.lookup_cons] at h
    cases hb : (k == k1) with
    | true => rw [hb] at h; exact h
    | false => rw [hb] at h; exact ih h

theorem lookup_append_none {β : Type} (l₁ l₂ : List (String × β)) (k : String)
    (h : l₁.lookup k = none) : (l₁ ++ l₂).lookup k = l₂.lookup k := by
  induction l₁ with
  | nil => rfl
  | cons e t ih =>
    obtain ⟨k1, v1⟩ := e
    rw [List.cons_append, List.lookup_cons]
    rw [List.lookup_cons] at h
    cases hb : (k == k1) with
    | true => rw [hb] at h; exact absurd h (by simp)
    | false => rw [hb] at h; exact ih h

theorem lookup_some_mem {β : Type} (l : List (String × β)) (k : String) (v : β)
    (h : l.lookup k = some v) : (k, v) ∈ l := by
  induction l with
  | nil => simp [List.lookup] at h
  | cons e t ih =>
    obtain ⟨k1, v1⟩ := e
    rw [List.lookup_cons] at h
    cases hb : (k == k1) with
    | true =>
      rw [hb] at h
      have hk : k = k1 := by simpa using hb
      have hv : v = v1 := by simpa using h.symm
      simp [hk, hv]
    | false =>
      rw [hb] at h
      exact List.mem_cons_of_mem _ (ih h)

theorem lookup_none_not_mem_keys {β : Type} (l : List (String × β)) (k : String)
    (h : l.lookup k = none) : k ∉ l.map Prod.fst := by
  induction l with
  | nil => simp
  | cons e t ih =>
    obtain ⟨k1, v1⟩ := e
    rw [List.lookup_cons] at h
    cases hb : (k == k1) with
    | true => rw [hb] at h; exact absurd h (by simp)
    | false =>
      rw [hb] at h
      have hk : k ≠ k1 := by simpa using hb
      simp only [List.map_cons, List.mem_cons]
      push_neg
      exact ⟨hk, ih h⟩

theorem lookup_mem_of_nodup {β : Type} (l : List (String × β)) (k : String)
    (v : β) (hnd : (l.map Prod.fst).Nodup) (hm : (k, v) ∈ l) :
    l.lookup k = some v := by
  induction l with
  | nil => simp at hm
  | cons e t ih =>
    obtain ⟨k1, v1⟩ := e
    simp only [List.map_cons, List.nodup_cons] at hnd
    rcases List.mem_cons.mp hm with he | ht
    · have hk : k = k1 := congrArg Prod.fst he
      have hv : v = v1 := congrArg Prod.snd he
      rw [List.lookup_cons, show (k == k1) = true by simpa using hk, hv]
    · have hk : k ≠ k1 := by
        intro hkk
        subst hkk
        exact hnd.1 (by simpa using List.mem_map_of_mem Prod.fst ht)
      rw [List.lookup_cons, beq_false_of_ne hk]
      exact ih hnd.2 ht

theorem keys_filter_nodup {β : Type} (l : List (String × β)) (k : String)
    (hnd : (l.map Prod.fst).Nodup) :
    ((l.filter (fun e => e.1 != k)).map Prod.fst).Nodup :=
  List.Nodup.sublist (List.Sublist.map Prod.fst (List.filter_sublist l)) hnd

theorem keys_append_nodup {β : Type} (l : List (String × β)) (k : String) (v : β)
    (hnd : (l.map Prod.fst).Nodup) (hk : l.lookup k = none) :
    ((l ++ [(k, v)]).map Prod.fst).Nodup := by
  have hnm := lookup_none_not_mem_keys l k hk
  rw [List.map_append, List.nodup_append]
  refine ⟨hnd, by simp, ?_⟩
  intro a ha hb
  simp only [List.map_cons, List.map_nil, List.mem_singleton] at hb
  exact hnm (hb ▸ ha)

/-! ### Portfolio-level helper lemmas -/

theorem has_position_false_lookup_none (pf : Portfolio) (sym : String)
    (h : pf.has_position_in_stock sym = false) :
    pf.positions.lookup sym = none := by
  cases hl : pf.positions.lookup sym with
  | none => rfl
  | some p => simp [Portfolio.has_position_in_stock, hl] at h

theorem open_long_keys_nodup (pf : Portfolio) (sym : String) (d : Int)
    (price vol : Rat) (hnd : (pf.positions.map Prod.fst).Nodup) :
    (((pf.open_long_position sym d price vol).1.positions).map Prod.fst).Nodup := by
  unfold Portfolio.open_long_position
  cases h : pf.has_position_in_stock sym with
  | true => simpa using hnd
  | false =>
    simp only [Bool.false_eq_true, if_false]
    exact keys_append_nodup _ _ _ hnd (has_position_false_lookup_none pf sym h)

theorem open_short_keys_nodup (pf : Portfolio) (sym : String) (d : Int)
    (price vol : Rat) (hnd : (pf.positions.map Prod.fst).Nodup) :
    (((pf.open_short_position sym d price vol).1.positions).map Prod.fst).Nodup := by
  unfold Portfolio.open_short_position
  cases h : pf.has_position_in_stock sym with
  | true => simpa using hnd
  | false =>
    simp only [Bool.false_eq_true, if_false]
    exact keys_append_nodup _ _ _ hnd (has_position_false_lookup_none pf sym h)

theorem close_keys_nodup (pf : Portfolio) (sym : String) (d : Int) (price : Rat)
    (r : ExitReason) (hnd : (pf.positions.map Prod.fst).Nodup) :
    (((pf.close_position sym d price r).positions).map Prod.fst).Nodup := by
  unfold Portfolio.close_position
  cases hl : pf.positions.lookup sym with
  | none => simpa using hnd
  | some p => simpa using keys_filter_nodup pf.positions sym hnd

/-! ### Engine-level helper lemmas -/

theorem close_and_record_spec (st : EngineState) (sym : String) (pos : Position)
    (d : Int) (price : Rat) (r : ExitReason)
    (hlook : st.portfolio.positions.lookup sym = some pos) :
    (close_and_record st sym pos d price r).portfolio.closed_positions
        = st.portfolio.closed_positions
          ++ [pos.close_position d price r
              ((pos.entry_value * st.portfolio.config.commission_bps) / 10000)]
    ∧ (close_and_record st sym pos d price r).performance.trades
        = st.performance.trades
          ++ [(pos.close_position d price r
              ((pos.entry_value * st.portfolio.config.commission_bps) / 10000)).to_dict]
    ∧ (close_and_record st sym pos d price r).portfolio.positions
        = st.portfolio.positions.filter (fun e => e.1 != sym)
    ∧ (close_and_record st sym pos d price r).portfolio.cash = st.portfolio.cash
    ∧ (close_and_record st sym pos d price r).portfolio.config = st.portfolio.config
    ∧ (close_and_record st sym pos d price r).portfolio.initial_capital
        = st.portfolio.initial_capital := by
  unfold close_and_record Portfolio.close_position
  rw [hlook]
  simp [PerformanceMetrics.add_trade]

theorem stop_update_of_stop_loss (d : Int) (data : List (String × StockData))
    (st : EngineState) (sym : String) (pos : Position) (row : PriceRow)
    (hrow : (day_rows data sym d).head? = some row)
    (hsl : pos.check_stop_loss row.close = true) :
    stop_update d data st (sym, pos)
      = close_and_record st sym pos d row.close ExitReason.STOP_LOSS := by
  unfold stop_update
  rw [show day_rows data (sym, pos).1 d = day_rows data sym d from rfl, hrow]
  simp [hsl]

theorem stop_update_of_stop_win (d : Int) (data : List (String × StockData))
    (st : EngineState) (sym : String) (pos : Position) (row : PriceRow)
    (hrow : (day_rows data sym d).head? = some row)
    (hsl : pos.check_stop_loss row.close = false)
    (hsw : pos.check_stop_win row.close = true) :
    stop_update d data st (sym, pos)
      = close_and_record st sym pos d row.close ExitReason.STOP_WIN := by
  unfold stop_update
  rw [show day_rows data (sym, pos).1 d = day_rows data sym d from rfl, hrow]
  simp [hsl, hsw]

/-! ### Fold-invariant machinery for the run-level claims -/

theorem foldl_preserves {α β : Type} (P : α → Prop) (f : α → β → α)
    (h : ∀ a b, P a → P (f a b)) :
    ∀ (l : List β) (a : α), P a → P (l.foldl f a) := by
  intro l
  induction l with
  | nil => exact fun a ha => ha
  | cons x t ih => exact fun a ha => ih (f a x) (h a x ha)

theorem open_long_fields (pf : Portfolio) (sym : String) (d : Int)
    (price vol : Rat) :
    (pf.open_long_position sym d price vol).1.cash = pf.cash
    ∧ (pf.open_long_position sym d price vol).1.initial_capital
        = pf.initial_capital
    ∧ (pf.open_long_position sym d price vol).1.config = pf.config
    ∧ (pf.open_long_position sym d price vol).1.closed_positions
        = pf.closed_positions := by
  unfold Portfolio.open_long_position
  by_cases h : pf.has_position_in_stock sym <;> simp [h]

theorem open_short_fields (pf : Portfolio) (sym : String) (d : Int)
    (price vol : Rat) :
    (pf.open_short_position sym d price vol).1.cash = pf.cash
    ∧ (pf.open_short_position sym d price vol).1.initial_capital
        = pf.initial_capital
    ∧ (pf.open_short_position sym d price vol).1.config = pf.config
    ∧ (pf.open_short_position sym d price vol).1.closed_positions
        = pf.closed_positions := by
  unfold Portfolio.open_short_position
  by_cases h : pf.has_position_in_stock sym <;> simp [h]

theorem open_long_positions_cases (pf : Portfolio) (sym : String) (d : Int)
    (price vol : Rat) :
    (pf.open_long_position sym d price vol).1.positions = pf.positions
    ∨ ∃ q : Position,
        q.entry_value = pf.initial_capital * pf.config.position_size_pct
        ∧ (pf.open_long_position sym d price vol).1.positions
            = pf.positions ++ [(sym, q)] := by
  unfold Portfolio.open_long_position
  by_cases h : pf.has_position_in_stock sym
  · exact Or.inl (by simp [h])
  · exact Or.inr ⟨{ symbol := sym
                    position_type := PositionType.LONG
                    entry_date := d
                    entry_price := price
                    shares := pf.initial_capital * pf.config.position_size_pct
                      / price
                    entry_value := pf.initial_capital * pf.config.position_size_pct
                    stop_loss_pct := pf.config.stop_loss_pct
                    stop_win_pct := pf.config.stop_win_pct },
      rfl, by simp [h]⟩

theorem open_short_positions_cases (pf : Portfolio) (sym : String) (d : Int)
    (price vol : Rat) :
    (pf.open_short_position sym d price vol).1.positions = pf.positions
    ∨ ∃ q : Position,
        q.entry_value = pf.initial_capital * pf.config.position_size_pct
        ∧ (pf.open_short_position sym d price vol).1.positions
            = pf.positions ++ [(sym, q)] := by
  unfold Portfolio.open_short_position
  by_cases h : pf.has_position_in_stock sym
  · exact Or.inl (by simp [h])
  · exact Or.inr ⟨{ symbol := sym
                    position_type := PositionType.SHORT
                    entry_date := d
                    entry_price := price
                    shares := pf.initial_capital * pf.config.position_size_pct
                      / price
                    entry_value := pf.initial_capital * pf.config.position_size_pct
                    stop_loss_pct := pf.config.stop_loss_pct
                    stop_win_pct := pf.config.stop_win_pct },
      rfl, by simp [h]⟩

theorem close_position_fields (pf : Portfolio) (sym : String) (d : Int)
    (price : Rat) (r : ExitReason) :
    (pf.close_position sym d price r).cash = pf.cash
    ∧ (pf.close_position sym d price r).initial_capital = pf.initial_capital
    ∧ (pf.close_position sym d price r).config = pf.config := by
  unfold Portfolio.close_position
  cases pf.positions.lookup sym <;> simp

theorem close_and_record_fields (st : EngineState) (sym : String)
    (pos : Position) (d : Int) (price : Rat) (r : ExitReason) :
    (close_and_record st sym pos d price r).portfolio.cash = st.portfolio.cash
    ∧ (close_and_record st sym pos d price r).portfolio.initial_capital
        = st.portfolio.initial_capital
    ∧ (close_and_record st sym pos d price r).portfolio.config
        = st.portfolio.config :=
  close_position_fields st.portfolio sym d price r

theorem close_position_entry_values (pf : Portfolio) (sym : String) (d : Int)
    (price : Rat) (r : ExitReason) (v : Rat)
    (hpos : ∀ e ∈ pf.positions, e.2.entry_value = v)
    (hclosed : ∀ p ∈ pf.closed_positions, p.entry_value = v) :
    (∀ e ∈ (pf.close_position sym d price r).positions, e.2.entry_value = v)
    ∧ ∀ p ∈ (pf.close_position sym d price r).closed_positions,
        p.entry_value = v := by
  unfold Portfolio.close_position
  cases hl : pf.positions.lookup sym with
  | none => exact ⟨hpos, hclosed⟩
  | some q =>
    constructor
    · intro e he
      exact hpos e (List.mem_of_mem_filter he)
    · intro p hp
      rcases List.mem_append.mp hp with hp1 | hp2
      · exact hclosed p hp1
      · have hpq : p = q.close_position d price r
            ((q.entry_value * pf.config.commission_bps) / 10000) := by
          simpa using hp2
        rw [hpq]
        show q.entry_value = v
        exact hpos (sym, q) (lookup_some_mem _ _ _ hl)

theorem stop_update_cases (d : Int) (data : List (String × StockData))
    (st : EngineState) (e : String × Position) :
    stop_update d data st e = st
    ∨ ∃ price r, stop_update d data st e = close_and_record st e.1 e.2 d price r := by
  unfold stop_update
  cases hL : (day_rows data e.1 d).head? with
  | none => exact Or.inl rfl
  | some row =>
    by_cases h1 : e.2.check_stop_loss row.close = true
    · exact Or.inr ⟨row.close, ExitReason.STOP_LOSS, by simp [h1]⟩
    · by_cases h2 : e.2.check_stop_win row.close = true
      · exact Or.inr ⟨row.close, ExitReason.STOP_WIN, by simp [h1, h2]⟩
      · exact Or.inl (by simp [h1, h2])

theorem signal_update_cases (sym : String) (st : EngineState) (sig : SignalRow) :
    signal_update sym st sig = st
    ∨ (∃ pos, st.portfolio.positions.lookup sym = some pos
        ∧ signal_update sym st sig
          = close_and_record st sym pos sig.date sig.price ExitReason.PATTERN_EXIT)
    ∨ signal_update sym st sig
        = { st with portfolio :=
            (st.portfolio.open_long_position sym sig.date sig.price sig.volume).1 }
    ∨ signal_update sym st sig
        = { st with portfolio :=
            (st.portfolio.open_short_position sym sig.date sig.price
              sig.volume).1 } := by
  unfold signal_update
  cases hl : st.portfolio.positions.lookup sym with
  | some pos =>
    by_cases hc : (pos.position_type = PositionType.LONG
          ∧ sig.signal_type = SignalType.bearish)
        ∨ (pos.position_type = PositionType.SHORT
          ∧ sig.signal_type = SignalType.bullish)
    · exact Or.inr (Or.inl ⟨pos, rfl, if_pos hc⟩)
    · exact Or.inl (if_neg hc)
  | none =>
    cases hty : sig.signal_type with
    | bullish => exact Or.inr (Or.inr (Or.inl rfl))
    | bearish => exact Or.inr (Or.inr (Or.inr rfl))

theorem process_signals_for_symbol_eq (d : Int) (gen : StockData → List SignalRow)
    (st : EngineState) (e : String × StockData) :
    process_signals_for_symbol d gen st e
      = if (e.2.filter (fun r => r.date == d)).isEmpty then st
        else ((gen e.2).filter (fun s => s.date == d)).foldl
          (signal_update e.1) st := rfl

/-! ### The sizing invariant behind C7 -/

/-- Every reachable engine state keeps the initial cash, carries the original
config, and sizes every position from the fixed baseline. -/
def sized (c : Rat) (cfg : BacktestConfig) (st : EngineState) : Prop :=
  st.portfolio.cash = c
  ∧ st.portfolio.initial_capital = c
  ∧ st.portfolio.config = cfg
  ∧ (∀ e ∈ st.portfolio.positions, e.2.entry_value = c * cfg.position_size_pct)
  ∧ ∀ p ∈ st.portfolio.closed_positions, p.entry_value = c * cfg.position_size_pct

theorem close_and_record_sized (c : Rat) (cfg : BacktestConfig)
    (st : EngineState) (sym : String) (pos : Position) (d : Int) (price : Rat)
    (r : ExitReason) (h : sized c cfg st) :
    sized c cfg (close_and_record st sym pos d price r) := by
  obtain ⟨h1, h2, h3, h4, h5⟩ := h
  obtain ⟨f1, f2, f3⟩ := close_and_record_fields st sym pos d price r
  obtain ⟨g1, g2⟩ := close_position_entry_values st.portfolio sym d price r _ h4 h5
  exact ⟨f1.trans h1, f2.trans h2, f3.trans h3, g1, g2⟩

theorem signal_update_sized (c : Rat) (cfg : BacktestConfig) (sym : String) :
    ∀ (st : EngineState) (sig : SignalRow),
      sized c cfg st → sized c cfg (signal_update sym st sig) := by
  intro st sig h
  rcases signal_update_cases sym st sig with heq | ⟨pos, hl, heq⟩ | heq | heq
  · rw [heq]; exact h
  · rw [heq]
    exact close_and_record_sized c cfg st sym pos sig.date sig.price
      ExitReason.PATTERN_EXIT h
  · rw [heq]
    obtain ⟨h1, h2, h3, h4, h5⟩ := h
    obtain ⟨f1, f2, f3, f4⟩ :=
      open_long_fields st.portfolio sym sig.date sig.price sig.volume
    refine ⟨f1.trans h1, f2.trans h2, f3.trans h3, ?_, ?_⟩
    · intro e he
      change e ∈ (st.portfolio.open_long_position sym sig.date sig.price
        sig.volume).1.positions at he
      rcases open_long_positions_cases st.portfolio sym sig.date sig.price
        sig.volume with hp | ⟨q, hq, hp⟩
      · rw [hp] at he
        exact h4 e he
      · rw [hp] at he
        rcases List.mem_append.mp he with he1 | he2
        · exact h4 e he1
        · have : e = (sym, q) := by simpa using he2
          rw [this]
          rw [h2, h3] at hq
          exact hq
    · intro p hp
      change p ∈ (st.portfolio.open_long_position sym sig.date sig.price
        sig.volume).1.closed_positions at hp
      rw [f4] at hp
      exact h5 p hp
  · rw [heq]
    obtain ⟨h1, h2, h3, h4, h5⟩ := h
    obtain ⟨f1, f2, f3, f4⟩ :=
      open_short_fields st.portfolio sym sig.date sig.price sig.volume
    refine ⟨f1.trans h1, f2.trans h2, f3.trans h3, ?_, ?_⟩
    · intro e he
      change e ∈ (st.portfolio.open_short_position sym sig.date sig.price
        sig.volume).1.positions at he
      rcases open_short_positions_cases st.portfolio sym sig.date sig.price
        sig.volume with hp | ⟨q, hq, hp⟩
      · rw [hp] at he
        exact h4 e he
      · rw [hp] at he
        rcases List.mem_append.mp he with he1 | he2
        · exact h4 e he1
        · have : e = (sym, q) := by simpa using he2
          rw [this]
          rw [h2, h3] at hq
          exact hq
    · intro p hp
      change p ∈ (st.portfolio.open_short_position sym sig.date sig.price
        sig.volume).1.closed_positions at hp
      rw [f4] at hp
      exact h5 p hp

theorem stop_update_sized (c : Rat) (cfg : BacktestConfig) (d : Int)
    (data : List (String × StockData)) :
    ∀ (st : EngineState) (e : String × Position),
      sized c cfg st → sized c cfg (stop_update d data st e) := by
  intro st e h
  rcases stop_update_cases d data st e with heq | ⟨price, r, heq⟩
  · rw [heq]; exact h
  · rw [heq]; exact close_and_record_sized c cfg st e.1 e.2 d price r h

theorem check_all_stops_sized (c : Rat) (cfg : BacktestConfig) (d : Int)
    (data : List (String × StockData)) (st : EngineState)
    (h : sized c cfg st) : sized c cfg (check_all_stops_on_date d data st) :=
  foldl_preserves (sized c cfg) (stop_update d data)
    (stop_update_sized c cfg d data) st.portfolio.positions st h

theorem process_signals_for_symbol_sized (c : Rat) (cfg : BacktestConfig)
    (d : Int) (gen : StockData → List SignalRow) :
    ∀ (st : EngineState) (e : String × StockData),
      sized c cfg st → sized c cfg (process_signals_for_symbol d gen st e) := by
  intro st e h
  rw [process_signals_for_symbol_eq]
  by_cases hb : (e.2.filter (fun r => r.date == d)).isEmpty = true
  · rw [if_pos hb]; exact h
  · rw [if_neg hb]
    exact foldl_preserves (sized c cfg) (signal_update e.1)
      (signal_update_sized c cfg e.1) _ st h

theorem process_all_signals_sized (c : Rat) (cfg : BacktestConfig) (d : Int)
    (gen : StockData → List SignalRow) (data : List (String × StockData))
    (st : EngineState) (h : sized c cfg st) :
    sized c cfg (process_all_signals_on_date d gen data st) :=
  foldl_preserves (sized c cfg) (process_signals_for_symbol d gen)
    (process_signals_for_symbol_sized c cfg d gen) data st h

theorem run_day_sized (c : Rat) (cfg : BacktestConfig)
    (data : List (String × StockData)) (gen : StockData → List SignalRow) :
    ∀ (st : EngineState) (d : Int),
      sized c cfg st → sized c cfg (run_day data gen st d) := by
  intro st d h
  exact process_all_signals_sized c cfg d gen data _
    (check_all_stops_sized c cfg d data st h)

theorem init_sized (config : BacktestConfig) :
    sized config.initial_capital config (EngineState.init config) :=
  ⟨rfl, rfl, rfl, by simp [EngineState.init, Portfolio.init],
    by simp [EngineState.init, Portfolio.init]⟩

/-! ### The trade-count invariant behind C10 -/

/-- Reachable engine states have exactly one trade record per closed
position, and unique keys in the open map. -/
def counted (st : EngineState) : Prop :=
  st.performance.trades.length = st.portfolio.closed_positions.length
  ∧ (st.portfolio.positions.map Prod.fst).Nodup

theorem close_and_record_counted (st : EngineState) (sym : String)
    (pos : Position) (d : Int) (price : Rat) (r : ExitReason)
    (hl : st.portfolio.positions.lookup sym = some pos) (h : counted st) :
    counted (close_and_record st sym pos d price r) := by
  obtain ⟨h1, h2, h3, -⟩ := close_and_record_spec st sym pos d price r hl
  constructor
  · rw [h1, h2]
    simp [h.1]
  · rw [h3]
    exact keys_filter_nodup _ _ h.2

theorem signal_update_counted (sym : String) :
    ∀ (st : EngineState) (sig : SignalRow),
      counted st → counted (signal_update sym st sig) := by
  intro st sig h
  rcases signal_update_cases sym st sig with heq | ⟨pos, hl, heq⟩ | heq | heq
  · rw [heq]; exact h
  · rw [heq]
    exact close_and_record_counted st sym pos sig.date sig.price
      ExitReason.PATTERN_EXIT hl h
  · rw [heq]
    refine ⟨?_, ?_⟩
    · show st.performance.trades.length
        = (st.portfolio.open_long_position sym sig.date sig.price
          sig.volume).1.closed_positions.length
      rw [(open_long_fields st.portfolio sym sig.date sig.price sig.volume).2.2.2]
      exact h.1
    · exact open_long_keys_nodup st.portfolio sym sig.date sig.price sig.volume h.2
  · rw [heq]
    refine ⟨?_, ?_⟩
    · show st.performance.trades.length
        = (st.portfolio.open_short_position sym sig.date sig.price
          sig.volume).1.closed_positions.length
      rw [(open_short_fields st.portfolio sym sig.date sig.price sig.volume).2.2.2]
      exact h.1
    · exact open_short_keys_nodup st.portfolio sym sig.date sig.price sig.volume h.2

theorem stops_fold_counted (d : Int) (data : List (String × StockData)) :
    ∀ (snap : List (String × Position)) (st : EngineState),
      counted st →
      (∀ e ∈ snap, st.portfolio.positions.lookup e.1 = some e.2) →
      (snap.map Prod.fst).Nodup →
      counted (snap.foldl (stop_update d data) st) := by
  intro snap
  induction snap with
  | nil => exact fun st h _ _ => h
  | cons e t ih =>
    intro st hc hmem hnd
    have hnd' : e.1 ∉ t.map Prod.fst ∧ (t.map Prod.fst).Nodup := by
      simpa [List.nodup_cons] using hnd
    have hlook := hmem e (List.mem_cons_self e t)
    rw [List.foldl_cons]
    rcases stop_update_cases d data st e with heq | ⟨price, r, heq⟩
    · rw [heq]
      exact ih st hc (fun e' he' => hmem e' (List.mem_cons_of_mem e he')) hnd'.2
    · rw [heq]
      refine ih _ (close_and_record_counted st e.1 e.2 d price r hlook hc)
        ?_ hnd'.2
      intro e' he'
      have hpos : (close_and_record st e.1 e.2 d price r).portfolio.positions
          = st.portfolio.positions.filter (fun x => x.1 != e.1) :=
        (close_and_record_spec st e.1 e.2 d price r hlook).2.2.1
      rw [hpos]
      have hne : e'.1 ≠ e.1 := fun hx =>
        hnd'.1 (hx ▸ List.mem_map_of_mem Prod.fst he')
      rw [lookup_filter_ne _ _ _ hne]
      exact hmem e' (List.mem_cons_of_mem e he')

theorem check_all_stops_counted (d : Int) (data : List (String × StockData))
    (st : EngineState) (h : counted st) :
    counted (check_all_stops_on_date d data st) :=
  stops_fold_counted d data st.portfolio.positions st h
    (fun e he => lookup_mem_of_nodup st.portfolio.positions e.1 e.2 h.2 he) h.2

theorem process_signals_for_symbol_counted (d : Int)
    (gen : StockData → List SignalRow) :
    ∀ (st : EngineState) (e : String × StockData),
      counted st → counted (process_signals_for_symbol d gen st e) := by
  intro st e h
  rw [process_signals_for_symbol_eq]
  by_cases hb : (e.2.filter (fun r => r.date == d)).isEmpty = true
  · rw [if_pos hb]; exact h
  · rw [if_neg hb]
    exact foldl_preserves counted (signal_update e.1)
      (signal_update_counted e.1) _ st h

theorem process_all_signals_counted (d : Int) (gen : StockData → List SignalRow)
    (data : List (String × StockData)) (st : EngineState) (h : counted st) :
    counted (process_all_signals_on_date d gen data st) :=
  foldl_preserves counted (process_signals_for_symbol d gen)
    (process_signals_for_symbol_counted d gen) data st h

theorem run_day_counted (data : List (String × StockData))
    (gen : StockData → List SignalRow) :
    ∀ (st : EngineState) (d : Int),
      counted st → counted (run_day data gen st d) := by
  intro st d h
  exact process_all_signals_counted d gen data _
    (check_all_stops_counted d data st h)

theorem init_counted (config : BacktestConfig) :
    counted (EngineState.init config) :=
  ⟨rfl, by simp [EngineState.init, Portfolio.init]⟩

/-! ### Concrete fixtures used by individual claim statements -/

/-- Scenario A of the spec: Long, entryPrice 100, shares 10, entryValue 1000,
stopLossPct 0.05, stopWinPct 0.20. -/
def c1pos : Position :=
  { symbol := "A"
    position_type := PositionType.LONG
    entry_date := 0
    entry_price := 100
    shares := 10
    entry_value := 1000
    stop_loss_pct := 5 / 100
    stop_win_pct := 20 / 100 }

/-- A long position used to exercise the double-close behaviour. -/
def c6pos : Position :=
  { symbol := "B"
    position_type := PositionType.LONG
    entry_date := 0
    entry_price := 100
    shares := 10
    entry_value := 1000
    stop_loss_pct := 5 / 100
    stop_win_pct := 20 / 100 }

/-- A pathological long position for which stop-loss and stop-win can both
hold on the same price (negative stop-win fraction), as in the spec's
ordering law ("testable by construction"). -/
def c2pos : Position :=
  { symbol := "X"
    position_type := PositionType.LONG
    entry_date := 0
    entry_price := 100
    shares := 10
    entry_value := 1000
    stop_loss_pct := 5 / 100
    stop_win_pct := -(1 / 10) }

/-- Price data putting symbol X at 92 on day 5 (92 ≤ 95 and 92 ≥ 90). -/
def c2data : List (String × StockData) := [("X", [{ date := 5, close := 92 }])]

/-- Engine state holding the pathological position. -/
def c2st : EngineState :=
  { portfolio :=
      { config := {}
        initial_capital := 1000000
        cash := 1000000
        positions := [("X", c2pos)]
        closed_positions := [] }
    performance := {} }

/-- A plain open long used to exercise the pattern-exit path. -/
def c4pos : Position :=
  { symbol := "X"
    position_type := PositionType.LONG
    entry_date := 0
    entry_price := 100
    shares := 10
    entry_value := 1000
    stop_loss_pct := 5 / 100
    stop_win_pct := 20 / 100 }

/-- Engine state holding the open long for the pattern-exit scenario. -/
def c4st : EngineState :=
  { portfolio :=
      { config := {}
        initial_capital := 1000000
        cash := 1000000
        positions := [("X", c4pos)]
        closed_positions := [] }
    performance := {} }

/-- Scenario D series for symbol A: rows on 2024-01-01 and 2024-01-03. -/
def c3rowsA : StockData :=
  [{ date := 20240101, close := 10 }, { date := 20240103, close := 11 }]

/-- Scenario D series for symbol B: a single row on 2024-01-02. -/
def c3rowsB : StockData := [{ date := 20240102, close := 20 }]

/-- Scenario D data set: A trades on 01-01 and 01-03, B on 01-02. -/
def c3data : List (String × StockData) := [("A", c3rowsA), ("B", c3rowsB)]

/-- An open position in symbol A used on the day A has no data. -/
def c3pos : Position :=
  { symbol := "A"
    position_type := PositionType.LONG
    entry_date := 20240101
    entry_price := 10
    shares := 100
    entry_value := 1000
    stop_loss_pct := 5 / 100
    stop_win_pct := 20 / 100 }

/-- An engine state holding the open position in A. -/
def c3st : EngineState :=
  { portfolio :=
      { config := {}
        initial_capital := 1000000
        cash := 1000000
        positions := [("A", c3pos)]
        closed_positions := [] }
    performance := {} }

end Engulfing

open Engulfing

/-- **C1.** For every open Position, `close(exitDate, exitPrice, reason,
commission)` sets `exitValue = shares * exitPrice`, `returnAmount =
exitValue - entryValue - commission` for a Long and `entryValue - exitValue
- commission` for a Short, `returnPct = returnAmount / entryValue * 100`,
and `holdDays` = whole days between entry and exit; in particular Scenario A
(Long, entryPrice 100, shares 10, entryValue 1000, commission 1, closed at
94) yields `returnAmount = -61` and `returnPct = -6.1`. -/
theorem C1_close_position_formulas (p : Position)
    (h : p.status = PositionStatus.OPEN) (d : Int) (price : Rat)
    (reason : ExitReason) (c : Rat) :
    ((p.close_position d price reason c).exit_value = some (p.shares * price)
      ∧ (p.close_position d price reason c).return_amount =
          some (match p.position_type with
            | PositionType.LONG => p.shares * price - p.entry_value - c
            | PositionType.SHORT => p.entry_value - p.shares * price - c)
      ∧ (p.close_position d price reason c).return_pct =
          some (((match p.position_type with
            | PositionType.LONG => p.shares * price - p.entry_value - c
            | PositionType.SHORT => p.entry_value - p.shares * price - c)
              / p.entry_value) * 100)
      ∧ (p.close_position d price reason c).hold_days = some (d - p.entry_date))
    ∧ (c1pos.close_position 1 94 ExitReason.STOP_LOSS 1).return_amount = some (-61)
    ∧ (c1pos.close_position 1 94 ExitReason.STOP_LOSS 1).return_pct =
        some (-(61 / 10)) := by
  refine ⟨⟨?_, ?_, ?_, ?_⟩, ?_, ?_⟩
  case _ => cases hp : p.position_type <;> simp [Position.close_position, hp]
  case _ => cases hp : p.position_type <;> simp [Position.close_position, hp]
  case _ => cases hp : p.position_type <;> simp [Position.close_position, hp]
  case _ => cases hp : p.position_type <;> simp [Position.close_position, hp]
  case _ => norm_num [c1pos, Position.close_position]
  case _ => norm_num [c1pos, Position.close_position]

/-- Witness for C1: the general formula instantiated at Scenario A. -/
theorem C1_close_position_formulas_witness :
    (c1pos.close_position 1 94 ExitReason.STOP_LOSS 1).exit_value =
      some (c1pos.shares * 94) :=
  (C1_close_position_formulas c1pos rfl 1 94 ExitReason.STOP_LOSS 1).1.1

/-- **C5.** For a symbol that already has an open position, both
`open_long_position` and `open_short_position` return `false` and leave the
portfolio (open map, closed history, cash) entirely unchanged; and the open
operations preserve key uniqueness, so a symbol occurs at most once in the
open-position map. -/
theorem C5_open_rejected_when_occupied (pf : Portfolio) (sym : String)
    (d : Int) (price vol : Rat) (h : pf.has_position_in_stock sym = true) :
    pf.open_long_position sym d price vol = (pf, false)
    ∧ pf.open_short_position sym d price vol = (pf, false)
    ∧ (∀ (sym2 : String) (d2 : Int) (price2 vol2 : Rat),
        (pf.positions.map Prod.fst).Nodup →
        ((((pf.open_long_position sym2 d2 price2 vol2).1.positions).map Prod.fst).Nodup
          ∧ (((pf.open_short_position sym2 d2 price2 vol2).1.positions).map
              Prod.fst).Nodup)) := by
  refine ⟨by simp [Portfolio.open_long_position, h],
    by simp [Portfolio.open_short_position, h], ?_⟩
  intro sym2 d2 price2 vol2 hnd
  exact ⟨open_long_keys_nodup pf sym2 d2 price2 vol2 hnd,
    open_short_keys_nodup pf sym2 d2 price2 vol2 hnd⟩

/-- A concrete occupied portfolio used to witness C5. -/
def c5pf : Portfolio :=
  { config := {}
    initial_capital := 1000000
    cash := 1000000
    positions := [("X", c1pos)]
    closed_positions := [] }

/-- Witness for C5: an occupied symbol is rejected on a concrete portfolio. -/
theorem C5_open_rejected_when_occupied_witness :
    c5pf.open_long_position "X" 3 50 100 = (c5pf, false) :=
  (C5_open_rejected_when_occupied c5pf "X" 3 50 100 rfl).1

/-- **C6 counterexample.** `Position.close_position` called on an
already-Closed position does not fail: it silently recomputes the exit
fields (the first close records `returnAmount = -61`, the second close
overwrites it with `-501` computed from the new exit price). -/
theorem C6_counterexample :
    (c6pos.close_position 1 94 ExitReason.STOP_LOSS 1).status = PositionStatus.CLOSED
    ∧ (c6pos.close_position 1 94 ExitReason.STOP_LOSS 1).return_amount = some (-61)
    ∧ ((c6pos.close_position 1 94 ExitReason.STOP_LOSS 1).close_position 2 50
        ExitReason.STOP_WIN 1).status = PositionStatus.CLOSED
    ∧ ((c6pos.close_position 1 94 ExitReason.STOP_LOSS 1).close_position 2 50
        ExitReason.STOP_WIN 1).exit_price = some 50
    ∧ ((c6pos.close_position 1 94 ExitReason.STOP_LOSS 1).close_position 2 50
        ExitReason.STOP_WIN 1).return_amount = some (-501) := by
  norm_num [c6pos, Position.close_position]

/-- **C6 (amended).** `Position.close_position` performs no status check:
called on an already-Closed position it does not fail but silently
recomputes every exit field from the new arguments and leaves the status
Closed.  Freshly opened positions have status Open with every exit field
unset, and the once-only discipline lives at the Portfolio level: closing a
symbol with no open position is a silent no-op (and a close removes the
symbol from the open map). -/
theorem C6_close_on_closed_recomputes (p : Position)
    (h : p.status = PositionStatus.CLOSED) (d : Int) (price : Rat)
    (r : ExitReason) (c : Rat) :
    ((p.close_position d price r c).status = PositionStatus.CLOSED
      ∧ (p.close_position d price r c).exit_date = some d
      ∧ (p.close_position d price r c).exit_price = some price
      ∧ (p.close_position d price r c).exit_value = some (p.shares * price)
      ∧ (p.close_position d price r c).commission = some c
      ∧ (p.close_position d price r c).exit_reason = some r)
    ∧ (∀ (pf : Portfolio) (sym : String) (d2 : Int) (price2 : Rat)
        (r2 : ExitReason), pf.positions.lookup sym = none →
        pf.close_position sym d2 price2 r2 = pf)
    ∧ (∀ (pf : Portfolio) (sym : String) (d2 : Int) (price2 vol2 : Rat),
        pf.has_position_in_stock sym = false →
        ∃ q, (pf.open_long_position sym d2 price2 vol2).1.positions.lookup sym
            = some q
          ∧ q.status = PositionStatus.OPEN ∧ q.exit_date = none
          ∧ q.exit_price = none ∧ q.exit_value = none ∧ q.return_pct = none
          ∧ q.return_amount = none ∧ q.hold_days = none
          ∧ q.exit_reason = none ∧ q.commission = none) := by
  refine ⟨⟨rfl, rfl, rfl, rfl, rfl, rfl⟩, ?_, ?_⟩
  · intro pf sym d2 price2 r2 hl
    simp [Portfolio.close_position, hl]
  · intro pf sym d2 price2 vol2 hno
    have hl := has_position_false_lookup_none pf sym hno
    have hlook : (pf.open_long_position sym d2 price2 vol2).1.positions.lookup sym
        = some
          { symbol := sym
            position_type := PositionType.LONG
            entry_date := d2
            entry_price := price2
            shares := pf.initial_capital * pf.config.position_size_pct / price2
            entry_value := pf.initial_capital * pf.config.position_size_pct
            stop_loss_pct := pf.config.stop_loss_pct
            stop_win_pct := pf.config.stop_win_pct } := by
      unfold Portfolio.open_long_position
      rw [hno]
      simp only [Bool.false_eq_true, if_false]
      rw [lookup_append_none pf.positions _ sym hl]
      simp [List.lookup_cons]
    exact ⟨_, hlook, rfl, rfl, rfl, rfl, rfl, rfl, rfl, rfl, rfl⟩

/-- Witness for the amended C6: the double close from the counterexample
position, run through the general statement. -/
theorem C6_close_on_closed_recomputes_witness :
    ((c6pos.close_position 1 94 ExitReason.STOP_LOSS 1).close_position 2 50
      ExitReason.STOP_WIN 1).exit_date = some 2 :=
  (C6_close_on_closed_recomputes (c6pos.close_position 1 94 ExitReason.STOP_LOSS 1)
    rfl 2 50 ExitReason.STOP_WIN 1).1.2.1

/-- **C8.** With an empty trade history `calculate_metrics` returns the
well-defined all-zero structure (hit rate 0, average return 0, zero trade
counts for every group) rather than erroring, and a group with zero trades
likewise yields all-zero group metrics. -/
theorem C8_empty_metrics_all_zero :
    (PerformanceMetrics.calculate_metrics {}).2 =
      { overall_total_trades := 0
        long_positions :=
          { hit_rate := 0, average_return := 0, total_trades := 0
            profitable_trades := 0, total_return := 0, best_trade := 0
            worst_trade := 0 }
        short_positions :=
          { hit_rate := 0, average_return := 0, total_trades := 0
            profitable_trades := 0, total_return := 0, best_trade := 0
            worst_trade := 0 }
        combined := { hit_rate := 0, average_return := 0 } }
    ∧ PerformanceMetrics.calculatePositionMetrics [] =
      { hit_rate := 0, average_return := 0, total_trades := 0
        profitable_trades := 0, total_return := 0, best_trade := 0
        worst_trade := 0 } :=
  ⟨rfl, rfl⟩

/-- **C9.** `calculate_metrics` is idempotent and read-only: it leaves the
aggregator state (in particular the trade list) unchanged, and calling it a
second time without adding trades produces the identical result. -/
theorem C9_metrics_idempotent_readonly (pm : PerformanceMetrics) :
    (pm.calculate_metrics).1 = pm
    ∧ (pm.calculate_metrics).1.trades = pm.trades
    ∧ ((pm.calculate_metrics).1.calculate_metrics).2 = (pm.calculate_metrics).2 :=
  ⟨rfl, rfl, rfl⟩

/-- **C2.** In the daily stop pass, for an open position whose symbol has a
price row on the current date, stop-loss is evaluated before stop-win: if
`check_stop_loss` holds the position is closed with reason StopLoss
(regardless of stop-win), otherwise if `check_stop_win` holds it is closed
with reason StopWin; when both hold, exactly one exit fires and its reason
is StopLoss. -/
theorem C2_stop_loss_before_stop_win (d : Int)
    (data : List (String × StockData)) (st : EngineState) (sym : String)
    (pos : Position) (row : PriceRow)
    (hlook : st.portfolio.positions.lookup sym = some pos)
    (hrow : (day_rows data sym d).head? = some row) :
    (pos.check_stop_loss row.close = true →
      (stop_update d data st (sym, pos)).portfolio.closed_positions
          = st.portfolio.closed_positions
            ++ [pos.close_position d row.close ExitReason.STOP_LOSS
                ((pos.entry_value * st.portfolio.config.commission_bps) / 10000)]
      ∧ (stop_update d data st (sym, pos)).performance.trades
          = st.performance.trades
            ++ [(pos.close_position d row.close ExitReason.STOP_LOSS
                ((pos.entry_value * st.portfolio.config.commission_bps)
                  / 10000)).to_dict])
    ∧ (pos.check_stop_loss row.close = false →
        pos.check_stop_win row.close = true →
      (stop_update d data st (sym, pos)).portfolio.closed_positions
          = st.portfolio.closed_positions
            ++ [pos.close_position d row.close ExitReason.STOP_WIN
                ((pos.entry_value * st.portfolio.config.commission_bps) / 10000)]
      ∧ (stop_update d data st (sym, pos)).performance.trades
          = st.performance.trades
            ++ [(pos.close_position d row.close ExitReason.STOP_WIN
                ((pos.entry_value * st.portfolio.config.commission_bps)
                  / 10000)).to_dict])
    ∧ (pos.check_stop_loss row.close = true →
        pos.check_stop_win row.close = true →
      (stop_update d data st (sym, pos)).portfolio.closed_positions.length
          = st.portfolio.closed_positions.length + 1
      ∧ (stop_update d data st (sym, pos)).performance.trades.length
          = st.performance.trades.length + 1
      ∧ ((stop_update d data st (sym, pos)).portfolio.closed_positions.getLast?.map
            Position.exit_reason) = some (some ExitReason.STOP_LOSS)) := by
  refine ⟨?_, ?_, ?_⟩
  · intro hsl
    rw [stop_update_of_stop_loss d data st sym pos row hrow hsl]
    obtain ⟨h1, h2, -⟩ := close_and_record_spec st sym pos d row.close
      ExitReason.STOP_LOSS hlook
    exact ⟨h1, h2⟩
  · intro hsl hsw
    rw [stop_update_of_stop_win d data st sym pos row hrow hsl hsw]
    obtain ⟨h1, h2, -⟩ := close_and_record_spec st sym pos d row.close
      ExitReason.STOP_WIN hlook
    exact ⟨h1, h2⟩
  · intro hsl _
    rw [stop_update_of_stop_loss d data st sym pos row hrow hsl]
    obtain ⟨h1, h2, -⟩ := close_and_record_spec st sym pos d row.close
      ExitReason.STOP_LOSS hlook
    refine ⟨by simp [h1], by simp [h2], ?_⟩
    simp [h1, Position.close_position]

/-- Witness for C2: both stop conditions hold at price 92 for the
pathological position, and the single recorded exit carries StopLoss. -/
theorem C2_stop_loss_before_stop_win_witness :
    c2pos.check_stop_loss 92 = true ∧ c2pos.check_stop_win 92 = true
    ∧ (stop_update 5 c2data c2st ("X", c2pos)).portfolio.closed_positions
        = c2st.portfolio.closed_positions
          ++ [c2pos.close_position 5 92 ExitReason.STOP_LOSS
              ((c2pos.entry_value * c2st.portfolio.config.commission_bps)
                / 10000)] := by
  have hsl : c2pos.check_stop_loss 92 = true := by
    norm_num [Position.check_stop_loss, c2pos]
  have hsw : c2pos.check_stop_win 92 = true := by
    norm_num [Position.check_stop_win, c2pos]
  have hlook : c2st.portfolio.positions.lookup "X" = some c2pos := by
    simp [c2st, List.lookup_cons]
  have hrow : (day_rows c2data "X" 5).head? = some { date := 5, close := 92 } := by
    simp [day_rows, c2data, List.lookup_cons]
  exact ⟨hsl, hsw,
    ((C2_stop_loss_before_stop_win 5 c2data c2st "X" c2pos
      { date := 5, close := 92 } hlook hrow).1 hsl).1⟩

/-- **C4.** In the signal pass, an opposite-direction signal on a symbol with
an open position closes it with reason PatternExit, records the trade, and
does not open a new position from that same signal (the symbol is absent
from the open map afterwards); a same-direction signal while a position is
open is ignored; and a position in the opposite direction opens only from a
later, separate signal processed while no position is open. -/
theorem C4_opposite_signal_exit_no_reentry (st : EngineState) (sym : String)
    (pos : Position) (sig : SignalRow)
    (hlook : st.portfolio.positions.lookup sym = some pos) :
    (((pos.position_type = PositionType.LONG
          ∧ sig.signal_type = SignalType.bearish)
        ∨ (pos.position_type = PositionType.SHORT
          ∧ sig.signal_type = SignalType.bullish)) →
      (signal_update sym st sig).portfolio.positions.lookup sym = none
      ∧ (signal_update sym st sig).portfolio.closed_positions
          = st.portfolio.closed_positions
            ++ [pos.close_position sig.date sig.price ExitReason.PATTERN_EXIT
                ((pos.entry_value * st.portfolio.config.commission_bps) / 10000)]
      ∧ (signal_update sym st sig).performance.trades
          = st.performance.trades
            ++ [(pos.close_position sig.date sig.price ExitReason.PATTERN_EXIT
                ((pos.entry_value * st.portfolio.config.commission_bps)
                  / 10000)).to_dict])
    ∧ (((pos.position_type = PositionType.LONG
          ∧ sig.signal_type = SignalType.bullish)
        ∨ (pos.position_type = PositionType.SHORT
          ∧ sig.signal_type = SignalType.bearish)) →
      signal_update sym st sig = st)
    ∧ (∀ (st2 : EngineState) (sig2 : SignalRow),
        st2.portfolio.positions.lookup sym = none →
        ∃ q, (signal_update sym st2 sig2).portfolio.positions.lookup sym = some q
          ∧ (sig2.signal_type = SignalType.bearish →
              q.position_type = PositionType.SHORT)
          ∧ (sig2.signal_type = SignalType.bullish →
              q.position_type = PositionType.LONG)) := by
  refine ⟨?_, ?_, ?_⟩
  · intro hop
    have hstep : signal_update sym st sig
        = close_and_record st sym pos sig.date sig.price ExitReason.PATTERN_EXIT := by
      unfold signal_update
      simp only [hlook]
      rw [if_pos hop]
    rw [hstep]
    obtain ⟨h1, h2, h3, -⟩ := close_and_record_spec st sym pos sig.date sig.price
      ExitReason.PATTERN_EXIT hlook
    refine ⟨?_, h1, h2⟩
    rw [h3]
    exact lookup_filter_self st.portfolio.positions sym
  · intro hsame
    have hnot : ¬((pos.position_type = PositionType.LONG
          ∧ sig.signal_type = SignalType.bearish)
        ∨ (pos.position_type = PositionType.SHORT
          ∧ sig.signal_type = SignalType.bullish)) := by
      rcases hsame with ⟨hl, hb⟩ | ⟨hs, hb⟩ <;>
        rintro (⟨h1, h2⟩ | ⟨h1, h2⟩) <;> simp_all
    unfold signal_update
    simp only [hlook]
    rw [if_neg hnot]
  · intro st2 sig2 hnone
    have hno : st2.portfolio.has_position_in_stock sym = false := by
      simp [Portfolio.has_position_in_stock, hnone]
    have hln := has_position_false_lookup_none st2.portfolio sym hno
    cases hty : sig2.signal_type with
    | bullish =>
      refine ⟨{ symbol := sym
                position_type := PositionType.LONG
                entry_date := sig2.date
                entry_price := sig2.price
                shares := st2.portfolio.initial_capital
                  * st2.portfolio.config.position_size_pct / sig2.price
                entry_value := st2.portfolio.initial_capital
                  * st2.portfolio.config.position_size_pct
                stop_loss_pct := st2.portfolio.config.stop_loss_pct
                stop_win_pct := st2.portfolio.config.stop_win_pct },
        ?_, by simp [hty], fun _ => rfl⟩
      unfold signal_update
      simp only [hnone, hty]
      unfold Portfolio.open_long_position
      rw [hno]
      simp only [Bool.false_eq_true, if_false]
      rw [lookup_append_none _ _ sym hln]
      simp [List.lookup_cons]
    | bearish =>
      refine ⟨{ symbol := sym
                position_type := PositionType.SHORT
                entry_date := sig2.date
                entry_price := sig2.price
                shares := st2.portfolio.initial_capital
                  * st2.portfolio.config.position_size_pct / sig2.price
                entry_value := st2.portfolio.initial_capital
                  * st2.portfolio.config.position_size_pct
                stop_loss_pct := st2.portfolio.config.stop_loss_pct
                stop_win_pct := st2.portfolio.config.stop_win_pct },
        ?_, fun _ => rfl, by simp [hty]⟩
      unfold signal_update
      simp only [hnone, hty]
      unfold Portfolio.open_short_position
      rw [hno]
      simp only [Bool.false_eq_true, if_false]
      rw [lookup_append_none _ _ sym hln]
      simp [List.lookup_cons]

/-- Witness for C4: a bearish signal against the concrete open long closes
it and leaves no open position for the symbol. -/
theorem C4_opposite_signal_exit_no_reentry_witness :
    (signal_update "X" c4st
      { date := 7, signal_type := SignalType.bearish, price := 90, volume := 0
        }).portfolio.positions.lookup "X" = none := by
  have hlook : c4st.portfolio.positions.lookup "X" = some c4pos := by
    simp [c4st, List.lookup_cons]
  exact ((C4_opposite_signal_exit_no_reentry c4st "X" c4pos
    { date := 7, signal_type := SignalType.bearish, price := 90, volume := 0 }
    hlook).1 (Or.inl ⟨rfl, rfl⟩)).1

/-- **C3.** The engine's unified timeline is the sorted, duplicate-free union
of every date present in any symbol's series, and a symbol with no price
row on a day is skipped by both the stop pass and the signal pass; in
Scenario D (A trades on 01-01 and 01-03, B on 01-02) the timeline is the
three days and on 01-02 the steps for A leave the state untouched while B
has a price row. -/
theorem C3_timeline_union_and_skip :
    (∀ data : List (String × StockData),
      (trading_days data).Sorted (· ≤ ·) ∧ (trading_days data).Nodup)
    ∧ (∀ (data : List (String × StockData)) (d : Int),
        d ∈ trading_days data ↔ ∃ e ∈ data, ∃ r ∈ e.2, r.date = d)
    ∧ (∀ (d : Int) (data : List (String × StockData)) (st : EngineState)
        (e : String × Position), day_rows data e.1 d = [] →
        stop_update d data st e = st)
    ∧ (∀ (d : Int) (gen : StockData → List SignalRow) (st : EngineState)
        (e : String × StockData), e.2.filter (fun r => r.date == d) = [] →
        process_signals_for_symbol d gen st e = st)
    ∧ trading_days c3data = [20240101, 20240102, 20240103]
    ∧ (∀ (st : EngineState) (pos : Position),
        stop_update 20240102 c3data st ("A", pos) = st)
    ∧ (∀ (gen : StockData → List SignalRow) (st : EngineState),
        process_signals_for_symbol 20240102 gen st ("A", c3rowsA) = st)
    ∧ day_rows c3data "B" 20240102 = [{ date := 20240102, close := 20 }] := by
  have hskip_stop : ∀ (d : Int) (data : List (String × StockData))
      (st : EngineState) (e : String × Position), day_rows data e.1 d = [] →
      stop_update d data st e = st := by
    intro d data st e h
    unfold stop_update
    rw [h]
    rfl
  have hskip_sig : ∀ (d : Int) (gen : StockData → List SignalRow)
      (st : EngineState) (e : String × StockData),
      e.2.filter (fun r => r.date == d) = [] →
      process_signals_for_symbol d gen st e = st := by
    intro d gen st e h
    unfold process_signals_for_symbol
    rw [h]
    rfl
  refine ⟨?_, ?_, hskip_stop, hskip_sig, ?_, ?_, ?_, ?_⟩
  · intro data
    refine ⟨List.sorted_insertionSort _ _, ?_⟩
    exact ((List.perm_insertionSort _ _).symm).nodup (List.nodup_dedup _)
  · intro data d
    simp [trading_days, List.mem_insertionSort, List.mem_dedup,
      List.mem_flatMap, List.mem_map]
  · decide
  · intro st pos
    exact hskip_stop 20240102 c3data st ("A", pos)
      (show day_rows c3data "A" 20240102 = [] by decide)
  · intro gen st
    exact hskip_sig 20240102 gen st ("A", c3rowsA) (by decide)
  · decide

/-- Witness for C3: the skip clauses applied at the concrete Scenario D
state — on 01-02 the stop step for A is the identity. -/
theorem C3_timeline_union_and_skip_witness :
    stop_update 20240102 c3data c3st ("A", c3pos) = c3st :=
  C3_timeline_union_and_skip.2.2.1 20240102 c3data c3st ("A", c3pos)
    (show day_rows c3data "A" 20240102 = [] by decide)

/-- **C7.** Throughout a backtest run the portfolio's cash is never mutated
by opening or closing positions (after any prefix of days, and at the end of
`run_backtest`, cash equals the initial capital), and every position — open
or already closed — carries an entry notional of
`initialCapital * positionSizePct` computed from the fixed initial-capital
baseline, never from current cash or accumulated profit and loss. -/
theorem C7_cash_untouched_fixed_sizing (data : List (String × StockData))
    (gen : StockData → List SignalRow) (config : BacktestConfig)
    (days : List Int) :
    (days.foldl (run_day data gen) (EngineState.init config)).portfolio.cash
        = config.initial_capital
    ∧ (run_backtest data gen config).portfolio.cash = config.initial_capital
    ∧ (run_backtest data gen config).portfolio.positions.all
        (fun e => e.2.entry_value
          == config.initial_capital * config.position_size_pct) = true
    ∧ (run_backtest data gen config).portfolio.closed_positions.all
        (fun p => p.entry_value
          == config.initial_capital * config.position_size_pct) = true := by
  have hdays : ∀ ds : List Int,
      sized config.initial_capital config
        (ds.foldl (run_day data gen) (EngineState.init config)) :=
    fun ds => foldl_preserves _ (run_day data gen)
      (run_day_sized config.initial_capital config data gen) ds _
      (init_sized config)
  have hrun : sized config.initial_capital config (run_backtest data gen config) :=
    hdays (trading_days data)
  refine ⟨(hdays days).1, hrun.1, ?_, ?_⟩
  · exact List.all_eq_true.mpr fun e he => beq_iff_eq.mpr (hrun.2.2.2.1 e he)
  · exact List.all_eq_true.mpr fun p hp => beq_iff_eq.mpr (hrun.2.2.2.2 p hp)

/-- **C10.** At every day boundary of a run (any prefix of the day loop, and
at the end of `run_backtest`) the number of trade records accumulated by the
performance aggregator equals the length of the portfolio's closed-position
history, because every close performed by the engine appends exactly one
position to the closed history and exactly one trade record to the
aggregator, and nothing else appends to either. -/
theorem C10_one_trade_record_per_close (data : List (String × StockData))
    (gen : StockData → List SignalRow) (config : BacktestConfig)
    (days : List Int) :
    (days.foldl (run_day data gen)
        (EngineState.init config)).performance.trades.length
      = (days.foldl (run_day data gen)
        (EngineState.init config)).portfolio.closed_positions.length
    ∧ (run_backtest data gen config).performance.trades.length
        = (run_backtest data gen config).portfolio.closed_positions.length
    ∧ (∀ (st : EngineState) (sym : String) (pos : Position) (d : Int)
        (price : Rat) (r : ExitReason),
        st.portfolio.positions.lookup sym = some pos →
        (close_and_record st sym pos d price r).performance.trades.length
            = st.performance.trades.length + 1
        ∧ (close_and_record st sym pos d price r).portfolio.closed_positions.length
            = st.portfolio.closed_positions.length + 1) := by
  have hdays : ∀ ds : List Int,
      counted (ds.foldl (run_day data gen) (EngineState.init config)) :=
    fun ds => foldl_preserves counted (run_day data gen)
      (run_day_counted data gen) ds _ (init_counted config)
  refine ⟨(hdays days).1, (hdays (trading_days data)).1, ?_⟩
  intro st sym pos d price r hl
  obtain ⟨h1, h2, -⟩ := close_and_record_spec st sym pos d price r hl
  exact ⟨by simp [h2], by simp [h1]⟩

/-- Witness for C10: one concrete engine close appends one trade record and
one closed position. -/
theorem C10_one_trade_record_per_close_witness :
    (close_and_record c4st "X" c4pos 7 90
        ExitReason.PATTERN_EXIT).performance.trades.length
      = c4st.performance.trades.length + 1 := by
  have hlook : c4st.portfolio.positions.lookup "X" = some c4pos := by
    simp [c4st, List.lookup_cons]
  exact ((C10_one_trade_record_per_close [] (fun _ => []) {} []).2.2 c4st "X"
    c4pos 7 90 ExitReason.PATTERN_EXIT hlook).1
